import Mathlib

set_option maxRecDepth 100000

/-!
Verification development for the BANG recursive unpacking engine
(spec sections 4.4, 4.5, 7) against the sources
`src/bang/parsers/filesystem/jffs2/UnpackParser.py` and
`src/unpack_directory.py`.

Bytes are modelled as `Nat` values (masked with `% 256` where they are
read from a stream), byte streams as `List Nat`, and the Python parser
loops as fuel-based step functions over explicit state records.
Python exceptions are modelled explicitly: `UnpackParserException`
(the sanctioned structural error) is distinguished from unrecoverable
faults such as `NameError` and `KeyError`.
-/

/-! ## Byte stream utilities -/

/-- Read one byte of a stream; out-of-range reads yield 0 and are guarded
by explicit length checks at each use site, mirroring the Python file
object whose `read` is always length-checked in the source. -/
def getByte (d : List Nat) (i : Nat) : Nat := (d.getD i 0) % 256

/-- A contiguous slice of `n` bytes starting at `i` (short at end of
stream, like Python `read`). -/
def sliceBytes (d : List Nat) (i n : Nat) : List Nat :=
  ((d.drop i).take n).map (fun b => b % 256)

/-- Little-endian read of `n` bytes at `i`. -/
def readLE (d : List Nat) (i : Nat) : Nat → Nat
  | 0 => 0
  | n + 1 => getByte d i + 256 * readLE d (i + 1) n

/-- Big-endian read of `n` bytes at `i`. -/
def readBE (d : List Nat) (i : Nat) : Nat → Nat
  | 0 => 0
  | n + 1 => getByte d i * 256 ^ n + readBE d (i + 1) n

/-- Endian-dispatched read: `be = true` selects big-endian, as chosen by
the file-system magic in `Jffs2UnpackParser.parse`. -/
def readEnd (be : Bool) (d : List Nat) (i n : Nat) : Nat :=
  if be then readBE d i n else readLE d i n

/-- Round a stream position up to the next 4-byte boundary
(`UnpackParser.py` lines 403-407 and the other padding blocks). -/
def align4 (x : Nat) : Nat := if x % 4 = 0 then x else x + (4 - x % 4)

/-! ## The JFFS2 checksum

`UnpackParser.py` line 232 computes
`(zlib.crc32(bytes, -1) ^ -1) & 0xffffffff`.  `zlib.crc32` is the
reflected CRC-32 (polynomial 0xEDB88320) with the seed pre-xored and the
result post-xored with 0xFFFFFFFF; seeding with -1 and xoring the result
with -1 cancels both conditioning steps, leaving the raw shift-register
value started at 0.  Both forms are defined below and proved equal. -/

/-- One shift-register round of the reflected CRC-32 polynomial. -/
def crc32Round (c : Nat) : Nat :=
  if c % 2 = 1 then (c / 2) ^^^ 0xEDB88320 else c / 2

/-- Feed one byte into the CRC-32 shift register. -/
def crc32Byte (c b : Nat) : Nat := crc32Round^[8] (c ^^^ (b % 256))

/-- The raw CRC-32 register over a byte list, started at 0 and with no
final xor: the JFFS2 node-header checksum. -/
def crc32Raw (bs : List Nat) : Nat := bs.foldl crc32Byte 0

/-- Model of `zlib.crc32(bs, seed)`: seed is masked to 32 bits and
pre-xored with 0xFFFFFFFF, the register is run over the bytes, and the
result is post-xored with 0xFFFFFFFF. -/
def zlibCrc32 (seed : Nat) (bs : List Nat) : Nat :=
  (bs.foldl crc32Byte ((seed % 2 ^ 32) ^^^ 0xFFFFFFFF)) ^^^ 0xFFFFFFFF

/-- Model of the Python expression
`(zlib.crc32(bs, -1) ^ -1) & 0xffffffff` from `UnpackParser.py`
lines 232 and 265: `-1` masked to 32 bits is 0xFFFFFFFF, and
`(r ^ -1) & 0xffffffff` on `0 ≤ r < 2^32` equals `r xor 0xFFFFFFFF`. -/
def jffs2HeaderCrc (bs : List Nat) : Nat :=
  ((zlibCrc32 0xFFFFFFFF bs) ^^^ 0xFFFFFFFF) &&& 0xFFFFFFFF

theorem crc32Round_lt (c : Nat) (h : c < 2 ^ 32) : crc32Round c < 2 ^ 32 := by
  unfold crc32Round
  have h2 : c / 2 < 2 ^ 32 := lt_of_le_of_lt (Nat.div_le_self c 2) h
  have h3 : (0xEDB88320 : Nat) < 2 ^ 32 := by norm_num
  split
  · exact Nat.xor_lt_two_pow h2 h3
  · exact h2

theorem crc32Round_iter_lt (n : Nat) (c : Nat) (h : c < 2 ^ 32) :
    crc32Round^[n] c < 2 ^ 32 := by
  induction n generalizing c with
  | zero => simpa using h
  | succ k ih =>
      rw [Function.iterate_succ_apply]
      exact ih _ (crc32Round_lt c h)

theorem crc32Byte_lt (c b : Nat) (h : c < 2 ^ 32) : crc32Byte c b < 2 ^ 32 := by
  unfold crc32Byte
  apply crc32Round_iter_lt
  have hb : b % 256 < 2 ^ 32 :=
    lt_of_lt_of_le (Nat.mod_lt b (by norm_num)) (by norm_num)
  exact Nat.xor_lt_two_pow h hb

theorem crc32_fold_lt (bs : List Nat) (c : Nat) (h : c < 2 ^ 32) :
    bs.foldl crc32Byte c < 2 ^ 32 := by
  induction bs generalizing c with
  | nil => simpa using h
  | cons x xs ih => exact ih _ (crc32Byte_lt c x h)

/-- The source's inverted-CRC expression equals the raw register value:
seeding `zlib.crc32` with -1 and xoring its result with -1 removes both
conditioning xors of the zlib variant. -/
theorem jffs2HeaderCrc_eq_raw (bs : List Nat) : jffs2HeaderCrc bs = crc32Raw bs := by
  unfold jffs2HeaderCrc zlibCrc32 crc32Raw
  have h1 : ((0xFFFFFFFF : Nat) % 2 ^ 32) ^^^ 0xFFFFFFFF = 0 := by norm_num
  rw [h1]
  have hlt : bs.foldl crc32Byte 0 < 2 ^ 32 := crc32_fold_lt bs 0 (by norm_num)
  rw [Nat.xor_assoc, Nat.xor_self, Nat.xor_zero]
  have hm : (0xFFFFFFFF : Nat) = 2 ^ 32 - 1 := by norm_num
  rw [hm]
  exact Nat.and_pow_two_sub_one_of_lt_two_pow hlt

/-! ## UTF-8 decodability

`bytes.decode()` in Python succeeds exactly on valid UTF-8 (no overlong
forms, no surrogates, at most U+10FFFF).  Only decodability drives the
parser's control flow (`UnicodeDecodeError` means break), so a boolean
validity check suffices. -/

/-- A UTF-8 continuation byte. -/
def utf8Cont (b : Nat) : Bool := 0x80 ≤ b && b ≤ 0xBF

/-- Validity of a byte list as UTF-8, following the table in RFC 3629. -/
def utf8Ok : List Nat → Bool
  | [] => true
  | b :: rest =>
    if b ≤ 0x7F then utf8Ok rest
    else if 0xC2 ≤ b && b ≤ 0xDF then
      match rest with
      | c1 :: r => utf8Cont c1 && utf8Ok r
      | [] => false
    else if b = 0xE0 then
      match rest with
      | c1 :: c2 :: r => (0xA0 ≤ c1 && c1 ≤ 0xBF) && utf8Cont c2 && utf8Ok r
      | _ => false
    else if (0xE1 ≤ b && b ≤ 0xEC) || b = 0xEE || b = 0xEF then
      match rest with
      | c1 :: c2 :: r => utf8Cont c1 && utf8Cont c2 && utf8Ok r
      | _ => false
    else if b = 0xED then
      match rest with
      | c1 :: c2 :: r => (0x80 ≤ c1 && c1 ≤ 0x9F) && utf8Cont c2 && utf8Ok r
      | _ => false
    else if b = 0xF0 then
      match rest with
      | c1 :: c2 :: c3 :: r => (0x90 ≤ c1 && c1 ≤ 0xBF) && utf8Cont c2 && utf8Cont c3 && utf8Ok r
      | _ => false
    else if 0xF1 ≤ b && b ≤ 0xF3 then
      match rest with
      | c1 :: c2 :: c3 :: r => utf8Cont c1 && utf8Cont c2 && utf8Cont c3 && utf8Ok r
      | _ => false
    else if b = 0xF4 then
      match rest with
      | c1 :: c2 :: c3 :: r => (0x80 ≤ c1 && c1 ≤ 0x8F) && utf8Cont c2 && utf8Cont c3 && utf8Ok r
      | _ => false
    else false

example : utf8Ok [0x66] = true := by decide
example : utf8Ok [0xFF, 0x41] = false := by decide
example : crc32Raw [] = 0 := by decide
example : jffs2HeaderCrc [0x31] = crc32Raw [0x31] := jffs2HeaderCrc_eq_raw _

/-! ## JFFS2 node decoding

`parse()` decodes each node with the Kaitai-generated `jffs2.Jffs2.from_io`.
The generated module is not part of the analysed sources, so the decoder
below is modelled from the spec (section 4.5: 12-byte header of magic,
type, length and checksum; directory-entry and content-fragment layouts)
and cross-checked against the explicit field-by-field reads of the same
records in `Jffs2UnpackParser.unpack` (lines 498-670), which pin every
byte offset used here. -/

/-- The decoded per-type payload of one node.  Only the fields that
`parse()` reads are retained; the skipped fields (mctime, uid, gid,
timestamps, the unverified node CRCs) influence nothing. -/
inductive NodeBody where
  | dirent (parentInode inodeVersion inodeNumber nsize nameCrc : Nat) (name : List Nat)
  | inode (inodeNumber inodeVersion fileMode ofsWrite csize dsize compr : Nat)
      (payload : List Nat)
  | knownOther
  | unknownType
deriving Repr, DecidableEq

/-- One decoded node: the common 12-byte header plus the typed body. -/
structure JNode where
  magic : Nat
  inodeType : Nat
  lenInode : Nat
  headerCrc : Nat
  body : NodeBody
deriving Repr, DecidableEq

/-- Result of a decode attempt: EOFError and ValidationFailedError are
the two exception classes `parse()` catches around `from_io`. -/
inductive DecRes where
  | ok (node : JNode) (endPos : Nat)
  | eofErr
  | validationErr
deriving Repr, DecidableEq

/-- Modelled from the spec: decode of one node at `off`.  The magic is
read big-endian: 0x1985 on a big-endian file system, 0x8519 on a
little-endian one, 0x0000 for a dirty node; anything else fails
validation.  All later fields follow the endianness selected by the
magic (for dirty nodes little-endian is assumed; their decoded fields
are skipped by the caller).  A directory entry (type 0xe001) has
parent inode at +12, version at +16, inode number at +20, name size at
+28, name CRC at +36 and the name bytes at +40; a content node
(type 0xe002) has inode number at +12, version at +16, mode at +20,
write offset at +44, compressed size at +48, decompressed size at +52,
compression tag at +56 and the payload at +68.  Other known types keep
an opaque body of declared length; an unknown type yields a header-only
node, which keeps the zero-padding handling of `parse()` reachable. -/
def decodeNode (d : List Nat) (off : Nat) : DecRes :=
  if off + 12 > d.length then .eofErr
  else
    let magic := readBE d off 2
    if magic ≠ 0x1985 ∧ magic ≠ 0x8519 ∧ magic ≠ 0 then .validationErr
    else
      let be := magic == 0x1985
      let ty := readEnd be d (off + 2) 2
      let len := readEnd be d (off + 4) 4
      let hcrc := readEnd be d (off + 8) 4
      if ty = 0xe001 then
        if off + 40 > d.length then .eofErr
        else
          let nsize := getByte d (off + 28)
          if off + 40 + nsize > d.length then .eofErr
          else .ok ⟨magic, ty, len, hcrc,
            .dirent (readEnd be d (off + 12) 4) (readEnd be d (off + 16) 4)
              (readEnd be d (off + 20) 4) nsize (readEnd be d (off + 36) 4)
              (sliceBytes d (off + 40) nsize)⟩ (off + 40 + nsize)
      else if ty = 0xe002 then
        if off + 68 > d.length then .eofErr
        else
          let csize := readEnd be d (off + 48) 4
          if off + 68 + csize > d.length then .eofErr
          else .ok ⟨magic, ty, len, hcrc,
            .inode (readEnd be d (off + 12) 4) (readEnd be d (off + 16) 4)
              (readEnd be d (off + 20) 4) (readEnd be d (off + 44) 4) csize
              (readEnd be d (off + 52) 4) (getByte d (off + 56))
              (sliceBytes d (off + 68) csize)⟩ (off + 68 + csize)
      else if ty = 0x2003 ∨ ty = 0x2004 ∨ ty = 0x2006 ∨ ty = 0xe008 ∨ ty = 0xe009 then
        if len < 12 then .validationErr
        else if off + len > d.length then .eofErr
        else .ok ⟨magic, ty, len, hcrc, .knownOther⟩ (off + len)
      else .ok ⟨magic, ty, len, hcrc, .unknownType⟩ (off + 12)

/-! ## The parse loop state -/

/-- Association-list lookup, first binding wins (a prepended binding
shadows older ones, matching Python dict assignment for the uses made
of these maps: membership tests and lookups). -/
def alookup {α : Type} (l : List (Nat × α)) (k : Nat) : Option α :=
  match l.find? (fun p => p.1 == k) with
  | some p => some p.2
  | none => none

/-- Association-list membership. -/
def amem {α : Type} (l : List (Nat × α)) (k : Nat) : Bool :=
  (alookup l k).isSome

/-- Set-like insertion into a list of naturals. -/
def natInsert (l : List Nat) (k : Nat) : List Nat :=
  if k ∈ l then l else k :: l

/-- The local state of `Jffs2UnpackParser.parse` (lines 105-136):
`inode_to_filename` (file names kept as raw byte segments),
`data_unpacked`, `inodes_seen_version`, `parent_inodes_seen`,
`inode_to_write_offset`, `inode_to_open_files` (only key membership is
ever used), `current_inode`, `prev_is_padding`, plus the read position.
`fragmentsMaterialized` is a ghost counter incremented exactly where
line 401 records a completed content fragment; it changes no control
flow. -/
structure PState where
  pos : Nat
  filenames : List (Nat × List (List Nat))
  dataUnpacked : Bool
  seenVersion : List (Nat × Nat)
  parents : List Nat
  writeOffsets : List (Nat × Nat)
  openFiles : List Nat
  currentInode : Option Nat
  prevIsPadding : Bool
  fragmentsMaterialized : Nat
deriving Repr, DecidableEq

/-- Initial state: position 0, the root inode 1 mapped to the empty
path, everything else empty. -/
def initPState : PState := ⟨0, [(1, [])], false, [], [], [], [], none, false, 0⟩

/-- Outcome of one loop iteration: `cont` is a `continue` or normal
fall-through to the alignment step, `stop` is `break` (the state keeps
any updates made before the break), `exn` is a raised
UnpackParserException and `fault` an unhandled Python error. -/
inductive StepRes where
  | cont (s : PState)
  | stop (s : PState)
  | exn (msg : String)
  | fault (msg : String)
deriving Repr, DecidableEq

/-- The first-two-bytes screen of lines 151-157: the per-endianness
magic, zeroed dirty space, or 0xFFFF empty space. -/
def magicPairOk (be : Bool) (b0 b1 : Nat) : Bool :=
  if be then
    (b0 == 0x19 && b1 == 0x85) || (b0 == 0 && b1 == 0) || (b0 == 0xff && b1 == 0xff)
  else
    (b0 == 0x85 && b1 == 0x19) || (b0 == 0 && b1 == 0) || (b0 == 0xff && b1 == 0xff)

/-- The codec dispatch of `parse()` (lines 329-401) for a content
fragment that passed the write-offset checks.  The live `buf` variable
at this point still holds the two magic bytes of the current node
(last assigned at line 147), so: zlib inflation of two magic bytes
always raises and the handler breaks; raw LZMA of two bytes produces no
error, after which line 401 reads the never-assigned local
`decompressed_size`, a NameError; the no-compression arm reaches
line 401 directly with the same NameError; the rtime arm reads
`decompressed_size` at line 363, again a NameError; the LZO arm raises
the same NameError inside a bare `except:` that converts it to
UnpackParserException; any other tag breaks. -/
def jffs2Codec (s : PState) (compr : Nat) : StepRes :=
  if compr = 0 then .fault "NameError: decompressed_size is not defined"
  else if compr = 6 then .stop s
  else if compr = 8 then .fault "NameError: decompressed_size is not defined"
  else if compr = 2 then .fault "NameError: decompressed_size is not defined"
  else if compr = 7 then .exn "invalid lzo compressed data"
  else .stop s

/-- The 0xFFFF empty-space handling of lines 161-167: read two more
bytes; continue past them when they are 0xFFFF as well, break
otherwise (also on a short read). -/
def ffffStep (d : List Nat) (cur : Nat) (s : PState) : StepRes :=
  if cur + 4 > d.length then .stop s
  else if getByte d (cur + 2) = 0xff ∧ getByte d (cur + 3) = 0xff then
    .cont { s with pos := cur + 4 }
  else .stop s

/-- The zero-type page-padding handling of lines 184-199: break when
the previous record was already padding, otherwise expect zero bytes up
to the next 4096 boundary (measured from `cur_offset + 4`). -/
def padStep (d : List Nat) (cur endPos : Nat) (s : PState) : StepRes :=
  if s.prevIsPadding then .stop s
  else if (cur + 4) % 4096 ≠ 0 then
    if sliceBytes d endPos (4096 - (cur + 4) % 4096) =
        List.replicate (4096 - (cur + 4) % 4096) 0 then
      .cont { s with pos := endPos + (4096 - (cur + 4) % 4096), prevIsPadding := true }
    else .stop s
  else .cont { s with pos := endPos, prevIsPadding := true }

/-- The directory-entry processing of lines 237-271: record the parent
inode, skip unlinked entries by their declared length, break on a
repeated (inode, version) pair, on an undecodable name and on a name
CRC mismatch, and extend the inode-to-filename table when the parent is
known. -/
def direntStep (cur lenInode endPos pino ver ino ncrc : Nat) (name : List Nat)
    (s1 : PState) : StepRes :=
  if ino = 0 then
    .cont { s1 with parents := natInsert s1.parents pino,
                    pos := align4 (cur + lenInode) }
  else if (ino, ver) ∈ s1.seenVersion then
    .stop { s1 with parents := natInsert s1.parents pino }
  else if utf8Ok name then
    if jffs2HeaderCrc name ≠ ncrc then
      .stop { s1 with parents := natInsert s1.parents pino,
                      seenVersion := (ino, ver) :: s1.seenVersion }
    else
      match alookup s1.filenames pino with
      | some pp =>
        .cont { s1 with parents := natInsert s1.parents pino,
                        seenVersion := (ino, ver) :: s1.seenVersion,
                        filenames := (ino, pp ++ [name]) :: s1.filenames,
                        pos := align4 endPos }
      | none =>
        .cont { s1 with parents := natInsert s1.parents pino,
                        seenVersion := (ino, ver) :: s1.seenVersion,
                        pos := align4 endPos }
  else
    .stop { s1 with parents := natInsert s1.parents pino,
                    seenVersion := (ino, ver) :: s1.seenVersion }

/-- The regular-file fragment processing of lines 306-401: the
write-offset sanity checks (an absent entry on a nonzero offset is a
KeyError, line 319), then the codec dispatch. -/
def regularStep (ino ofsW compr : Nat) (s1 : PState) : StepRes :=
  if ofsW = 0 then
    if amem s1.writeOffsets ino then .stop s1
    else if ino ∈ s1.openFiles then .stop s1
    else jffs2Codec { s1 with openFiles := ino :: s1.openFiles,
                              currentInode := some ino } compr
  else
    match alookup s1.writeOffsets ino with
    | none => .fault "KeyError: inode_to_write_offset"
    | some w =>
      if ofsW ≠ w then .stop s1
      else if ino ∈ s1.openFiles then jffs2Codec s1 compr
      else .stop s1

/-- The content-node processing of lines 273-401: break when the inode
has no known file name, skip unlinked inodes, then dispatch on the file
type.  The file-mode comparison against the Kaitai `Modes` enumeration
is modelled from the spec as the POSIX file-type mask 0xF000 (socket
0xC000, directory 0x4000, symlink 0xA000, regular 0x8000), matching
the `stat.S_IS*` tests of the same branch in `unpack()`
(lines 598-624). -/
def inodeStep (cur lenInode endPos ino mode ofsW compr : Nat) (payload : List Nat)
    (s1 : PState) : StepRes :=
  if (alookup s1.filenames ino).isNone then .stop s1
  else if ino = 0 then .cont { s1 with pos := align4 (cur + lenInode) }
  else if mode &&& 0xF000 = 0xC000 then .cont { s1 with pos := align4 endPos }
  else if mode &&& 0xF000 = 0x4000 then
    .cont { s1 with dataUnpacked := true, pos := cur + lenInode }
  else if mode &&& 0xF000 = 0xA000 then
    if utf8Ok payload then .cont { s1 with dataUnpacked := true, pos := align4 endPos }
    else .stop s1
  else if mode &&& 0xF000 = 0x8000 then regularStep ino ofsW compr s1
  else .cont { s1 with pos := align4 endPos }

/-- Processing of one normal (non-dirty) known-type node: the 8-byte
header CRC check of lines 227-234 guards everything that follows. -/
def normalStep (d : List Nat) (cur endPos : Nat) (node : JNode) (s1 : PState) : StepRes :=
  if jffs2HeaderCrc (sliceBytes d cur 8) ≠ node.headerCrc then .stop s1
  else
    match node.body with
    | .dirent pino ver ino _nsize ncrc name =>
      direntStep cur node.lenInode endPos pino ver ino ncrc name s1
    | .inode ino _ver mode ofsW _csize _dsize compr payload =>
      inodeStep cur node.lenInode endPos ino mode ofsW compr payload s1
    | _ => .cont { s1 with pos := align4 endPos }

/-- One iteration of the `while True` loop of `Jffs2UnpackParser.parse`
(lines 137-407).  `be` and `rootMagic` come from the first decoded node.
In order: end-of-input checks, the two-byte magic screen, the 0xFFFF
empty-space skip, the Kaitai decode (break on EOFError or
ValidationFailedError), the magic comparison against the root node, the
zero-type page-padding handling, the dirty-node skip (which clears
`prev_is_padding` at line 201 and skips to the aligned node end), and
the normal-node processing. -/
def parseStep (be : Bool) (rootMagic : Nat) (d : List Nat) (s : PState) : StepRes :=
  if s.pos + 2 > d.length then .stop s
  else if magicPairOk be (getByte d s.pos) (getByte d (s.pos + 1)) then
    if getByte d s.pos = 0xff then ffffStep d s.pos s
    else
      match decodeNode d s.pos with
      | .eofErr => .stop s
      | .validationErr => .stop s
      | .ok node endPos =>
        if node.magic ≠ rootMagic ∧ node.magic ≠ 0 then .stop s
        else
          match node.body with
          | .unknownType =>
            if node.inodeType = 0 then padStep d s.pos endPos s else .stop s
          | _ =>
            if getByte d s.pos = 0 then
              .cont { s with prevIsPadding := false, pos := align4 endPos }
            else normalStep d s.pos endPos node { s with prevIsPadding := false }
  else .stop s

/-- Result of running the whole loop: a clean end of stream (`break`)
carrying the `cur_offset` of the terminating iteration and the final
state, a raised UnpackParserException, an unhandled fault, or fuel
exhaustion (which only non-advancing degenerate streams can reach). -/
inductive LoopRes where
  | clean (off : Nat) (s : PState)
  | exn (msg : String)
  | fault (msg : String)
  | nofuel
deriving Repr, DecidableEq

/-- Fuel-indexed iteration of `parseStep`. -/
def parseLoop (be : Bool) (rootMagic : Nat) (d : List Nat) : Nat → PState → LoopRes
  | 0, _ => .nofuel
  | fuel + 1, s =>
    match parseStep be rootMagic d s with
    | .cont s2 => parseLoop be rootMagic d fuel s2
    | .stop s2 => .clean s.pos s2
    | .exn m => .exn m
    | .fault m => .fault m

/-- Overall outcome of `Jffs2UnpackParser.parse`. -/
inductive ParseRes where
  | success (unpackedSize : Nat) (s : PState)
  | exn (msg : String)
  | fault (msg : String)
  | nofuel
deriving Repr, DecidableEq

/-- `Jffs2UnpackParser.parse` (lines 92-412): decode the first node to
fix the endianness (failure raises UnpackParserException), run the loop
from position 0, then apply the two `check_condition` guards of
lines 409-410; on success `unpacked_size` is the `cur_offset` of the
iteration in which the stream ended. -/
def jffs2parse (d : List Nat) : ParseRes :=
  match decodeNode d 0 with
  | .eofErr => .exn "root node invalid"
  | .validationErr => .exn "root node invalid"
  | .ok root _ =>
    match parseLoop (root.magic == 0x1985) root.magic d (d.length + 2) initPState with
    | .clean off s2 =>
      if ¬ s2.dataUnpacked then .exn "no data unpacked"
      else if ¬ (1 ∈ s2.parents) then .exn "no valid root file node"
      else .success off s2
    | .exn m => .exn m
    | .fault m => .fault m
    | .nofuel => .nofuel

/-! ## Concrete little-endian node streams

Builders that lay out bytes exactly as `mkfs.jffs2` would for the few
node shapes the claims exercise; the checksums are computed with the
same `jffs2HeaderCrc` the parser model recomputes from the raw bytes. -/

/-- Two little-endian bytes. -/
def u16le (v : Nat) : List Nat := [v % 256, v / 256 % 256]

/-- Four little-endian bytes. -/
def u32le (v : Nat) : List Nat :=
  [v % 256, v / 256 % 256, v / 65536 % 256, v / 16777216 % 256]

/-- A little-endian 12-byte node header with a correct header CRC over
its first 8 bytes. -/
def mkHeaderLE (ty len : Nat) : List Nat :=
  [0x85, 0x19] ++ u16le ty ++ u32le len ++
    u32le (jffs2HeaderCrc ([0x85, 0x19] ++ u16le ty ++ u32le len))

/-- A little-endian directory-entry node with correct header and name
checksums (mctime, dirent type, the unused pad and the unchecked node
CRC are zero). -/
def mkDirentLE (pino ver ino : Nat) (name : List Nat) : List Nat :=
  mkHeaderLE 0xe001 (40 + name.length) ++ u32le pino ++ u32le ver ++ u32le ino ++
    u32le 0 ++ [name.length % 256, 0, 0, 0] ++ u32le 0 ++
    u32le (jffs2HeaderCrc name) ++ name

/-- A little-endian content node (uid, gid, the timestamps, isize and
the unchecked data/node CRCs are zero; compressed size is the payload
length). -/
def mkInodeLE (ino ver mode ofsW dsize compr : Nat) (payload : List Nat) : List Nat :=
  mkHeaderLE 0xe002 (68 + payload.length) ++ u32le ino ++ u32le ver ++ u32le mode ++
    u16le 0 ++ u16le 0 ++ u32le dsize ++ u32le 0 ++ u32le 0 ++ u32le 0 ++
    u32le ofsW ++ u32le payload.length ++ u32le dsize ++ [compr % 256, 0] ++
    u16le 0 ++ u32le 0 ++ u32le 0 ++ payload

/-- Pad a stream to the next 4-byte record boundary with zero bytes. -/
def padTo4 (l : List Nat) : List Nat :=
  l ++ List.replicate ((4 - l.length % 4) % 4) 0

/-! ## Concrete streams for the claims about `parse()` -/

/-- A well-formed little-endian stream: one valid directory entry for
inode 2 under the root (inode 1) with one-byte name 0x61, then one
regular-file content node for inode 2, write offset 0, passthrough
codec, 3-byte payload.  All checksums are correct. -/
def c1Input : List Nat :=
  padTo4 (mkDirentLE 1 1 2 [0x61]) ++ mkInodeLE 2 1 0x81A4 0 3 0 [1, 2, 3]

/-- Scenario B of the spec: one valid directory entry for inode 2 under
root (parent inode 1, name byte 0x66), then one content-fragment node
for inode 2 with the passthrough codec and the 10-byte payload
1..10. -/
def c2Input : List Nat :=
  padTo4 (mkDirentLE 1 1 2 [0x66]) ++
    mkInodeLE 2 1 0x81A4 0 10 0 [1, 2, 3, 4, 5, 6, 7, 8, 9, 10]

/-- Scenario C of the spec: a valid directory entry for inode 2, then a
content fragment for inode 2 whose write offset is 4 although no prior
fragment for that inode exists. -/
def c3Input : List Nat :=
  padTo4 (mkDirentLE 1 1 2 [0x63]) ++ mkInodeLE 2 1 0x81A4 4 3 0 [1, 2, 3]

/-- C1: the claim states that `parse()` either completes successfully or
raises UnpackParserException and never ends in an unrecoverable fault
such as a NameError or KeyError.  The code violates this: on the
well-formed stream `c1Input` the passthrough-codec arm completes and
line 401 of `UnpackParser.py` evaluates
`writeoffset + decompressed_size`, where the local `decompressed_size`
is never assigned anywhere in `parse()` — an unhandled NameError. -/
theorem claim_C1_parse_faults_on_wellformed_input :
    jffs2parse c1Input = ParseRes.fault "NameError: decompressed_size is not defined" := by
  decide

/-- C2: on the Scenario B stream the claim expects a successful parse
and one unpacked 10-byte file; instead `parse()` hits the same
unassigned `decompressed_size` at line 401 when processing the
passthrough fragment, an unhandled NameError, so the parser never
succeeds on this input. -/
theorem claim_C2_scenarioB_faults :
    jffs2parse c2Input = ParseRes.fault "NameError: decompressed_size is not defined" := by
  decide

/-- C3: the claim expects a content fragment whose write offset is
nonzero with no prior fragment for that inode to end the stream cleanly
at that record.  Instead line 319 of `UnpackParser.py` evaluates
`inode_to_write_offset[jffs2_inode.data.inode_number]` on a dictionary
that has no entry for the inode — an unhandled KeyError, not a clean
stop. -/
theorem claim_C3_nonzero_first_offset_faults :
    jffs2parse c3Input = ParseRes.fault "KeyError: inode_to_write_offset" := by
  decide

/-- A stream whose only inode record is a directory-mode inode: one
valid directory entry for inode 2 under root (name byte 0x64), then a
directory-mode content node (mode 0x41ED) for inode 2 with empty
payload.  `parse()` sets `data_unpacked = True` for the directory inode
(line 298) although no content fragment is ever materialized. -/
def c6Input : List Nat :=
  padTo4 (mkDirentLE 1 1 2 [0x64]) ++ mkInodeLE 2 1 0x41ED 0 0 0 []

/-- The final parse state reached on `c6Input`. -/
def c6Final : PState :=
  ⟨112, [(2, [[100]]), (1, [])], true, [(2, 1)], [1], [], [], none, false, 0⟩

/-- C6 counterexample: the claim says `parse()` reports success only if
at least one content fragment was materialized.  On `c6Input` the parse
succeeds (with `unpacked_size` 112) although zero content fragments
were materialized — the `data_unpacked` flag was set by a
directory-mode inode instead. -/
theorem claim_C6_counterexample :
    jffs2parse c6Input = ParseRes.success 112 c6Final ∧
      c6Final.fragmentsMaterialized = 0 := by
  exact ⟨by decide, rfl⟩

/-- C6 amended: `parse()` reports success exactly when the node-stream
loop ends cleanly (neither raising nor faulting) with the
`data_unpacked` flag set — which directory inodes and decodable
symlinks set as well as completed content-fragment branches — and with
some directory entry having carried parent inode 1; and on success
`unpacked_size` is the loop offset at which the stream ended (the
`cur_offset` of the terminating iteration). -/
theorem claim_C6_amended_success_iff (d : List Nat) (n : Nat) (s : PState) :
    jffs2parse d = ParseRes.success n s ↔
      ∃ root endPos, decodeNode d 0 = DecRes.ok root endPos ∧
        parseLoop (root.magic == 0x1985) root.magic d (d.length + 2) initPState =
          LoopRes.clean n s ∧
        s.dataUnpacked = true ∧ 1 ∈ s.parents := by
  rcases hd : decodeNode d 0 with ⟨root, ep⟩ | _ | _
  · rcases hl : parseLoop (root.magic == 0x1985) root.magic d (d.length + 2) initPState
      with ⟨off, s2⟩ | m | m | _
    · by_cases hu : s2.dataUnpacked = true
      · by_cases hp : (1 : Nat) ∈ s2.parents
        · constructor
          · intro h
            simp [jffs2parse, hd, hl, hu, hp] at h
            obtain ⟨rfl, rfl⟩ := h
            exact ⟨root, ep, rfl, hl, hu, hp⟩
          · rintro ⟨root2, ep2, hd2, hl2, hu2, hp2⟩
            injection hd2 with h1 h2
            subst h1
            rw [hl] at hl2
            injection hl2 with h3 h4
            subst h3; subst h4
            simp [jffs2parse, hd, hl, hu, hp]
        · constructor
          · intro h
            simp [jffs2parse, hd, hl, hu, hp] at h
          · rintro ⟨root2, ep2, hd2, hl2, hu2, hp2⟩
            injection hd2 with h1 h2
            subst h1
            rw [hl] at hl2
            injection hl2 with h3 h4
            subst h3; subst h4
            exact absurd hp2 hp
      · constructor
        · intro h
          simp [jffs2parse, hd, hl, hu] at h
        · rintro ⟨root2, ep2, hd2, hl2, hu2, hp2⟩
          injection hd2 with h1 h2
          subst h1
          rw [hl] at hl2
          injection hl2 with h3 h4
          subst h3; subst h4
          exact absurd hu2 hu
    · constructor
      · intro h
        simp [jffs2parse, hd, hl] at h
      · rintro ⟨root2, ep2, hd2, hl2, _, _⟩
        injection hd2 with h1 h2
        subst h1
        rw [hl] at hl2
        simp at hl2
    · constructor
      · intro h
        simp [jffs2parse, hd, hl] at h
      · rintro ⟨root2, ep2, hd2, hl2, _, _⟩
        injection hd2 with h1 h2
        subst h1
        rw [hl] at hl2
        simp at hl2
    · constructor
      · intro h
        simp [jffs2parse, hd, hl] at h
      · rintro ⟨root2, ep2, hd2, hl2, _, _⟩
        injection hd2 with h1 h2
        subst h1
        rw [hl] at hl2
        simp at hl2
  · constructor
    · intro h
      simp [jffs2parse, hd] at h
    · rintro ⟨root2, ep2, hd2, _, _, _⟩
      simp at hd2
  · constructor
    · intro h
      simp [jffs2parse, hd] at h
    · rintro ⟨root2, ep2, hd2, _, _, _⟩
      simp at hd2

/-- C4: the header-CRC check of lines 227-234 applies to every NORMAL
record (one whose two magic bytes are the per-endianness magic): the
checksum of the first 8 raw header bytes is recomputed with the
inverted CRC-32 variant (`jffs2HeaderCrc`, literally the expression
`(zlib.crc32(bs, -1) xor -1) & 0xffffffff` of line 232, proved equal to
the raw register value `crc32Raw`), and on a mismatch the loop breaks
cleanly with no state change beyond clearing `prev_is_padding` — no
decoded field of the record reaches the parse state. -/
theorem claim_C4_crc_mismatch_stops (be : Bool) (rm : Nat) (d : List Nat) (s : PState)
    (node : JNode) (endPos : Nat)
    (hlen : s.pos + 2 ≤ d.length)
    (hb0 : getByte d s.pos = if be then 0x19 else 0x85)
    (hb1 : getByte d (s.pos + 1) = if be then 0x85 else 0x19)
    (hdec : decodeNode d s.pos = DecRes.ok node endPos)
    (hmagic : node.magic = rm)
    (hknown : node.body ≠ NodeBody.unknownType)
    (hcrc : jffs2HeaderCrc (sliceBytes d s.pos 8) ≠ node.headerCrc) :
    parseStep be rm d s = StepRes.stop { s with prevIsPadding := false } ∧
      jffs2HeaderCrc (sliceBytes d s.pos 8) = crc32Raw (sliceBytes d s.pos 8) := by
  have hlen2 : ¬ (s.pos + 2 > d.length) := by omega
  refine ⟨?_, jffs2HeaderCrc_eq_raw _⟩
  rcases hbody : node.body with ⟨p, v, i, ns, nc, nm⟩ | ⟨i, v, mo, ow, cs, ds, co, pl⟩ | _ | _
  · cases be <;>
      simp [parseStep, normalStep, magicPairOk, if_neg hlen2, hb0, hb1, hdec, hmagic,
        hbody, hcrc]
  · cases be <;>
      simp [parseStep, normalStep, magicPairOk, if_neg hlen2, hb0, hb1, hdec, hmagic,
        hbody, hcrc]
  · cases be <;>
      simp [parseStep, normalStep, magicPairOk, if_neg hlen2, hb0, hb1, hdec, hmagic,
        hbody, hcrc]
  · exact absurd hbody hknown

/-- A directory-entry node whose header CRC byte at offset 8 has been
corrupted by one. -/
def c4Input : List Nat :=
  (mkDirentLE 1 1 2 [0x61]).set 8 (((mkDirentLE 1 1 2 [0x61]).getD 8 0 + 1) % 256)

/-- C4 witness: a concrete normal record with a mismatching 8-byte
header checksum makes the very next step a clean stop. -/
theorem claim_C4_witness :
    parseStep false 0x8519 c4Input initPState =
      StepRes.stop { initPState with prevIsPadding := false } ∧
      jffs2HeaderCrc (sliceBytes c4Input 0 8) = crc32Raw (sliceBytes c4Input 0 8) :=
  claim_C4_crc_mismatch_stops false 0x8519 c4Input initPState
    ⟨34073, 57345, 41, 3610224238, NodeBody.dirent 1 1 2 1 984961486 [97]⟩ 41
    (by decide) (by decide) (by decide) (by decide) rfl (by decide) (by decide)

/-- How one loop iteration may change `inodes_seen_version`: it is
either untouched, or extended by exactly one pair that was not yet
present (the guard at lines 252-256 breaks before any duplicate is
added). -/
def seenExtends (old : List (Nat × Nat)) : StepRes → Prop
  | .cont s2 => s2.seenVersion = old ∨ ∃ p, p ∉ old ∧ s2.seenVersion = p :: old
  | .stop s2 => s2.seenVersion = old ∨ ∃ p, p ∉ old ∧ s2.seenVersion = p :: old
  | .exn _ => True
  | .fault _ => True

theorem jffs2Codec_seen (old : List (Nat × Nat)) (s2 : PState)
    (h : s2.seenVersion = old) (compr : Nat) :
    seenExtends old (jffs2Codec s2 compr) := by
  unfold jffs2Codec
  repeat' split
  all_goals simp [seenExtends, h]

theorem ffffStep_seen (d : List Nat) (cur : Nat) (s : PState) :
    seenExtends s.seenVersion (ffffStep d cur s) := by
  unfold ffffStep
  repeat' split
  all_goals simp [seenExtends]

theorem padStep_seen (d : List Nat) (cur endPos : Nat) (s : PState) :
    seenExtends s.seenVersion (padStep d cur endPos s) := by
  unfold padStep
  repeat' split
  all_goals simp [seenExtends]

theorem direntStep_seen (cur lenInode endPos pino ver ino ncrc : Nat)
    (name : List Nat) (s1 : PState) :
    seenExtends s1.seenVersion (direntStep cur lenInode endPos pino ver ino ncrc name s1) := by
  unfold direntStep
  repeat' split
  all_goals simp_all [seenExtends]

theorem regularStep_seen (ino ofsW compr : Nat) (s1 : PState) :
    seenExtends s1.seenVersion (regularStep ino ofsW compr s1) := by
  unfold regularStep
  repeat' split
  all_goals first
    | exact jffs2Codec_seen _ _ rfl _
    | simp [seenExtends]

theorem inodeStep_seen (cur lenInode endPos ino mode ofsW compr : Nat)
    (payload : List Nat) (s1 : PState) :
    seenExtends s1.seenVersion (inodeStep cur lenInode endPos ino mode ofsW compr payload s1) := by
  unfold inodeStep
  repeat' split
  all_goals first
    | exact regularStep_seen _ _ _ _
    | simp [seenExtends]

theorem normalStep_seen (d : List Nat) (cur endPos : Nat) (node : JNode) (s1 : PState) :
    seenExtends s1.seenVersion (normalStep d cur endPos node s1) := by
  unfold normalStep
  repeat' split
  all_goals first
    | exact direntStep_seen _ _ _ _ _ _ _ _ _
    | exact inodeStep_seen _ _ _ _ _ _ _ _ _
    | simp [seenExtends]

theorem parseStep_seen (be : Bool) (rm : Nat) (d : List Nat) (s : PState) :
    seenExtends s.seenVersion (parseStep be rm d s) := by
  unfold parseStep
  repeat' split
  all_goals first
    | exact ffffStep_seen _ _ _
    | exact padStep_seen _ _ _ _
    | exact normalStep_seen _ _ _ _ _
    | simp [seenExtends]

theorem seenExtends_nodup (s : PState) (s2 : PState)
    (h : s2.seenVersion = s.seenVersion ∨
      ∃ p, p ∉ s.seenVersion ∧ s2.seenVersion = p :: s.seenVersion)
    (hn : s.seenVersion.Nodup) : s2.seenVersion.Nodup := by
  rcases h with he | ⟨p, hp, he⟩
  · rw [he]; exact hn
  · rw [he]; exact List.nodup_cons.mpr ⟨hp, hn⟩

/-- Running the loop from a state with a duplicate-free
`inodes_seen_version` keeps it duplicate-free to the end. -/
theorem parseLoop_nodup (be : Bool) (rm : Nat) (d : List Nat) :
    ∀ fuel s off s2, s.seenVersion.Nodup →
      parseLoop be rm d fuel s = LoopRes.clean off s2 → s2.seenVersion.Nodup := by
  intro fuel
  induction fuel with
  | zero =>
    intro s off s2 hn hl
    simp [parseLoop] at hl
  | succ k ih =>
    intro s off s2 hn hl
    have hseen := parseStep_seen be rm d s
    unfold parseLoop at hl
    rcases hr : parseStep be rm d s with s3 | s3 | m | m
    · rw [hr] at hseen
      simp only [hr] at hl
      simp only [seenExtends] at hseen
      exact ih s3 off s2 (seenExtends_nodup s s3 hseen hn) hl
    · rw [hr] at hseen
      simp only [hr] at hl
      simp only [seenExtends] at hseen
      injection hl with h1 h2
      subst h1; subst h2
      exact seenExtends_nodup s s3 hseen hn
    · simp only [hr] at hl
      simp at hl
    · simp only [hr] at hl
      simp at hl

/-- C5: within one parsed node stream, the accepted
(inode_number, inode_version) pairs of directory entries are unique.
First conjunct: a normal directory-entry record whose pair was already
seen makes the step a clean stop at that record (only the parent-inode
set, updated before the duplicate check at line 253, and the
`prev_is_padding` flag change).  Second conjunct: every state
materialized by a successful `parse()` carries a duplicate-free
`inodes_seen_version`. -/
theorem claim_C5_unique_pairs :
    (∀ (be : Bool) (rm : Nat) (d : List Nat) (s : PState) (node : JNode)
        (endPos pino ver ino nsize ncrc : Nat) (name : List Nat),
      s.pos + 2 ≤ d.length →
      getByte d s.pos = (if be then 0x19 else 0x85) →
      getByte d (s.pos + 1) = (if be then 0x85 else 0x19) →
      decodeNode d s.pos = DecRes.ok node endPos →
      node.magic = rm →
      node.body = NodeBody.dirent pino ver ino nsize ncrc name →
      jffs2HeaderCrc (sliceBytes d s.pos 8) = node.headerCrc →
      ino ≠ 0 →
      (ino, ver) ∈ s.seenVersion →
      parseStep be rm d s =
        StepRes.stop { s with prevIsPadding := false,
                              parents := natInsert s.parents pino }) ∧
    (∀ (d : List Nat) (n : Nat) (s : PState),
      jffs2parse d = ParseRes.success n s → s.seenVersion.Nodup) := by
  constructor
  · intro be rm d s node endPos pino ver ino nsize ncrc name
      hlen hb0 hb1 hdec hmagic hbody hcrceq hino hmem
    have hlen2 : ¬ (s.pos + 2 > d.length) := by omega
    cases be <;>
      simp [parseStep, normalStep, direntStep, magicPairOk, if_neg hlen2, hb0, hb1,
        hdec, hmagic, hbody, hcrceq, hino, hmem]
  · intro d n s h
    unfold jffs2parse at h
    split at h
    · simp at h
    · simp at h
    · split at h
      · rename_i off2 s2 hl
        split at h
        · simp at h
        · split at h
          · simp at h
          · obtain ⟨rfl, rfl⟩ := h
            exact parseLoop_nodup _ _ _ _ _ _ _ (by simp [initPState]) hl
      · simp at h
      · simp at h
      · simp at h

/-- A single valid directory-entry node (inode 2, version 1, parent 1,
name byte 0x61). -/
def c5DupInput : List Nat := mkDirentLE 1 1 2 [0x61]

/-- A parse state that has already seen the pair (2, 1). -/
def c5DupState : PState := { initPState with seenVersion := [(2, 1)] }

/-- A stream that parses successfully: a directory entry for inode 2
(name byte 0x65) and a directory-mode inode record for it. -/
def c5Input : List Nat :=
  padTo4 (mkDirentLE 1 1 2 [0x65]) ++ mkInodeLE 2 1 0x41ED 0 0 0 []

/-- The final state of the successful parse of `c5Input`. -/
def c5Final : PState :=
  ⟨112, [(2, [[101]]), (1, [])], true, [(2, 1)], [1], [], [], none, false, 0⟩

/-- C5 witness: the repeated pair (2, 1) stops the stream cleanly on a
concrete record, and the concrete successful parse of `c5Input` ends
with duplicate-free pairs. -/
theorem claim_C5_witness :
    (parseStep false 0x8519 c5DupInput c5DupState =
      StepRes.stop { c5DupState with
                       prevIsPadding := false,
                       parents := natInsert c5DupState.parents 1 }) ∧
    c5Final.seenVersion.Nodup :=
  ⟨claim_C5_unique_pairs.1 false 0x8519 c5DupInput c5DupState
      ⟨34073, 57345, 41, 3610224237, NodeBody.dirent 1 1 2 1 984961486 [97]⟩
      41 1 1 2 1 984961486 [97]
      (by decide) (by decide) (by decide) (by decide) rfl rfl (by decide)
      (by decide) (by decide),
   claim_C5_unique_pairs.2 c5Input 112 c5Final (by decide)⟩

/-- C6 amended witness: the amended characterization applied at the
concrete stream `c6Input`, rebuilding the concrete success from its
right-hand side. -/
theorem claim_C6_amended_witness :
    jffs2parse c6Input = ParseRes.success 112 c6Final :=
  (claim_C6_amended_success_iff c6Input 112 c6Final).mpr
    ⟨⟨34073, 57345, 41, 3610224237, NodeBody.dirent 1 1 2 1 1256170817 [100]⟩, 41,
      by decide, by decide, rfl, by decide⟩

/-! ## The fragment write of `Jffs2UnpackParser.unpack`

Lines 677-743 of `UnpackParser.py` dispatch a content fragment on its
codec tag and write bytes to the open output file.  The zlib, LZMA and
LZO decoders are external black-box transforms (spec section 1) and are
passed in as functions returning `none` where the library call raises;
the rtime back-reference decoder is repository code and is embedded
fully below, including the Python `bytearray` semantics: element
assignment out of range raises IndexError, slice assignment past the
end grows the array. -/

/-- The inner `while repeat:` copy loop of lines 729-733: byte-by-byte
back-reference copy; writes beyond the current array length raise
IndexError (`none`). -/
def rtimeRepeat : Nat → List Nat → Nat → Nat → Option (List Nat × Nat)
  | 0, out, outpos, _ => some (out, outpos)
  | r + 1, out, outpos, backoffs =>
    match out.get? backoffs with
    | none => none
    | some v =>
      if outpos < out.length then
        rtimeRepeat r (out.set outpos v) (outpos + 1) (backoffs + 1)
      else none

/-- The outer rtime loop of lines 717-738, fuel-indexed by the number
of remaining outer iterations (each iteration advances `outpos` by at
least one, so `dsize` fuel always suffices).  Reads past the end of the
compressed payload raise IndexError (`none`); the fast-path slice
assignment of lines 735-738 follows Python slice-assignment semantics
and may grow the array past the declared length. -/
def rtimeLoop (buf : List Nat) (dsize : Nat) :
    Nat → List Nat → List Nat → Nat → Nat → Option (List Nat)
  | 0, _, out, outpos, _ => if outpos < dsize then none else some out
  | fuel + 1, positions, out, outpos, pos =>
    if outpos < dsize then
      match buf.get? pos with
      | none => none
      | some value =>
        if outpos < out.length then
          match buf.get? (pos + 1) with
          | none => none
          | some rep =>
            if rep ≠ 0 then
              if positions.getD value 0 + rep ≥ outpos + 1 then
                match rtimeRepeat rep (out.set outpos value) (outpos + 1)
                    (positions.getD value 0) with
                | none => none
                | some (out2, outpos2) =>
                  rtimeLoop buf dsize fuel (positions.set value (outpos + 1))
                    out2 outpos2 (pos + 2)
              else
                rtimeLoop buf dsize fuel (positions.set value (outpos + 1))
                  ((out.set outpos value).take (outpos + 1) ++
                    (((out.set outpos value).drop (positions.getD value 0)).take rep) ++
                    (out.set outpos value).drop (outpos + 1 + rep))
                  (outpos + 1 + rep) (pos + 2)
            else
              rtimeLoop buf dsize fuel (positions.set value (outpos + 1))
                (out.set outpos value) (outpos + 1) (pos + 2)
        else none
    else some out

/-- The rtime decoder of lines 704-739: 256 zeroed positions, a zeroed
output buffer of the declared decompressed size, then the loop. -/
def rtimeDecompress (buf : List Nat) (dsize : Nat) : Option (List Nat) :=
  rtimeLoop buf dsize dsize (List.replicate 256 0) (List.replicate dsize 0) 0 0

/-- What one fragment write does: bytes written, `break` out of the
node loop (unknown codec, line 743), or an uncaught exception. -/
inductive WriteRes where
  | written (bytes : List Nat)
  | brk
  | fault (msg : String)
deriving Repr, DecidableEq

/-- The truncation of lines 685-688 and 700-703: output longer than the
declared decompressed size is cut to that size, shorter output is
written as is. -/
def truncOut (u : List Nat) (dsize : Nat) : List Nat :=
  if u.length > dsize then u.take dsize else u

/-- The codec dispatch of `unpack()` lines 677-743 for one content
fragment: passthrough writes the raw payload unconditionally (line
680); zlib and LZMA decode and truncate to the declared size; rtime
writes whatever buffer its loop produced; LZO writes the library result
(its third argument bounds the output buffer); any other tag breaks.
Decoder exceptions are uncaught in `unpack()` and fault. -/
def fragmentWrite (zlibD lzmaD : List Nat → Option (List Nat))
    (lzoD : List Nat → Nat → Option (List Nat))
    (compr : Nat) (buf : List Nat) (dsize : Nat) : WriteRes :=
  if compr = 0 then .written buf
  else if compr = 6 then
    match zlibD buf with
    | none => .fault "zlib.error"
    | some u => .written (truncOut u dsize)
  else if compr = 8 then
    match lzmaD buf with
    | none => .fault "lzma.LZMAError"
    | some u => .written (truncOut u dsize)
  else if compr = 2 then
    match rtimeDecompress buf dsize with
    | none => .fault "IndexError"
    | some out => .written out
  else if compr = 7 then
    match lzoD buf dsize with
    | none => .fault "lzo.error"
    | some out => .written out
  else .brk

theorem truncOut_eq_take (u : List Nat) (dsize : Nat) :
    truncOut u dsize = u.take (min dsize u.length) := by
  unfold truncOut
  split
  · have hm : min dsize u.length = dsize := Nat.min_eq_left (by omega)
    rw [hm]
  · have hm : min dsize u.length = u.length := Nat.min_eq_right (by omega)
    rw [hm, List.take_length]

theorem truncOut_le (u : List Nat) (dsize : Nat) : (truncOut u dsize).length ≤ dsize := by
  unfold truncOut
  split
  · simp [List.length_take]
  · omega

/-- C7 counterexample: the claim says no codec ever writes more than
the declared decompressed length.  The passthrough arm (line 680)
writes the full compressed payload without consulting the declared
length: a 5-byte payload with declared length 3 writes 5 bytes. -/
theorem claim_C7_counterexample :
    fragmentWrite (fun _ => none) (fun _ => none) (fun _ _ => none) 0 [1, 2, 3, 4, 5] 3 =
      WriteRes.written [1, 2, 3, 4, 5] ∧
      3 < ([1, 2, 3, 4, 5] : List Nat).length := by
  exact ⟨rfl, by decide⟩

/-- C7 amended: the truncation guarantee holds for the zlib and LZMA
arms — the bytes written are a prefix of the decoder output of length
at most the declared decompressed size, never an extension of it —
while the passthrough arm writes exactly the raw payload regardless of
the declared size. -/
theorem claim_C7_amended_truncation (zlibD lzmaD : List Nat → Option (List Nat))
    (lzoD : List Nat → Nat → Option (List Nat)) (buf : List Nat) (dsize : Nat)
    (u : List Nat) :
    (zlibD buf = some u →
      fragmentWrite zlibD lzmaD lzoD 6 buf dsize =
        WriteRes.written (u.take (min dsize u.length)) ∧
      (u.take (min dsize u.length)).length ≤ dsize) ∧
    (lzmaD buf = some u →
      fragmentWrite zlibD lzmaD lzoD 8 buf dsize =
        WriteRes.written (u.take (min dsize u.length)) ∧
      (u.take (min dsize u.length)).length ≤ dsize) ∧
    fragmentWrite zlibD lzmaD lzoD 0 buf dsize = WriteRes.written buf := by
  refine ⟨?_, ?_, ?_⟩
  · intro h
    constructor
    · simp [fragmentWrite, h, truncOut_eq_take]
    · rw [← truncOut_eq_take]
      exact truncOut_le u dsize
  · intro h
    constructor
    · simp [fragmentWrite, h, truncOut_eq_take]
    · rw [← truncOut_eq_take]
      exact truncOut_le u dsize
  · simp [fragmentWrite]

/-- C7 amended witness: the zlib arm at a concrete decoder output of
4 bytes with declared size 2 writes exactly the 2-byte prefix. -/
theorem claim_C7_amended_witness :
    fragmentWrite (fun _ => some [9, 9, 9, 9]) (fun _ => none) (fun _ _ => none) 6 [] 2 =
      WriteRes.written (([9, 9, 9, 9] : List Nat).take
        (min 2 ([9, 9, 9, 9] : List Nat).length)) ∧
      ((([9, 9, 9, 9] : List Nat).take (min 2 ([9, 9, 9, 9] : List Nat).length)).length ≤ 2) :=
  (claim_C7_amended_truncation (fun _ => some [9, 9, 9, 9]) (fun _ => none)
    (fun _ _ => none) [] 2 [9, 9, 9, 9]).1 rfl

/-! ## The provenance store: `unpack_directory.py`

`UnpackDirectory` keeps per-node data under `unpack_root / <name>`:
the original `pathname`, the pickled `info` blob, and the unpacked
payload tree under the `abs` and `rel` sub-directories.  Logical paths
are modelled as a flag for absoluteness plus a component list (pathlib
neither normalizes `..` nor `.`), the on-disk state of one node as
option-valued slots, and each accessor carries its storage-access
count. -/

/-- A logical path: `absolute` mirrors `pathlib.PurePath.is_absolute`,
the components may include `..` and `.` since pathlib keeps them. -/
structure LPath where
  absolute : Bool
  comps : List String
deriving Repr, DecidableEq

/-- `UnpackDirectory.unpacked_path` (lines 104-112): an absolute path
is re-rooted under the `abs` sub-namespace of the node (after
`relative_to('/')`), a relative path under `rel`; the node name is the
first component of the store-relative result. -/
def unpacked_path (udName : String) (p : LPath) : List String :=
  if p.absolute then udName :: "abs" :: p.comps else udName :: "rel" :: p.comps

/-- The unpack-root file tree that `write_file`/`mkdir` mutate. -/
structure UDStore where
  files : List (List String × List Nat)
  dirs : List (List String)
deriving Repr, DecidableEq

/-- `UnpackDirectory.write_file` (lines 114-123): writes `data` at the
mapped path and returns the store-relative path actually used. -/
def write_file (st : UDStore) (udName : String) (p : LPath) (data : List Nat) :
    UDStore × List String :=
  (⟨(unpacked_path udName p, data) :: st.files, st.dirs⟩, unpacked_path udName p)

/-- `UnpackDirectory.mkdir` (lines 125-132): creates the mapped
directory and returns the store-relative path actually used. -/
def mkdir (st : UDStore) (udName : String) (p : LPath) : UDStore × List String :=
  (⟨st.files, unpacked_path udName p :: st.dirs⟩, unpacked_path udName p)

/-- What the operating system does with `..` and `.` components when a
path is opened: `..` pops a component, `.` is skipped. -/
def resolveComps (cs : List String) : List String :=
  cs.foldl
    (fun acc c => if c = ".." then acc.dropLast else if c = "." then acc else acc ++ [c])
    []

theorem resolve_keeps_head (cs : List String) (acc : List String)
    (hacc : acc ≠ []) (hno : ".." ∉ cs) :
    (cs.foldl
      (fun acc c => if c = ".." then acc.dropLast else if c = "." then acc else acc ++ [c])
      acc).take 1 = acc.take 1 := by
  induction cs generalizing acc with
  | nil => rfl
  | cons c cs ih =>
    have hc : c ≠ ".." := fun he => hno (he ▸ List.mem_cons_self c cs)
    have hno2 : ".." ∉ cs := fun hm => hno (List.mem_cons_of_mem c hm)
    simp only [List.foldl_cons, if_neg hc]
    by_cases hd : c = "."
    · rw [if_pos hd]
      exact ih acc hacc hno2
    · rw [if_neg hd]
      have h1 : (acc ++ [c]).take 1 = acc.take 1 := by
        rcases acc with _ | ⟨a, as⟩
        · exact absurd rfl hacc
        · simp
      rw [ih (acc ++ [c]) (by simp) hno2, h1]

/-- C8 counterexample: the claim says no logical path can traverse
outside the directory of its node.  `unpacked_path` does not normalize
`..` components (pathlib keeps them), so the relative logical path
`../../x` maps to `n/rel/../../x`, which the operating system resolves
to `x` — outside node `n`. -/
theorem claim_C8_counterexample :
    (resolveComps (unpacked_path "n" ⟨false, ["..", "..", "x"]⟩)).take 1 ≠ ["n"] := by
  decide

/-- C8 amended: logical paths are mapped into the per-node namespace
(absolute paths under `abs`, relative paths under `rel`, the node name
first), so paths of distinct nodes never collide, and `write_file` and
`mkdir` return the store-relative path actually used; but containment
inside the node directory holds only for logical paths free of `..`
components — a `..` component can traverse outside (see the
counterexample). -/
theorem claim_C8_amended_namespacing :
    (∀ (ud : String) (cs : List String),
      unpacked_path ud ⟨true, cs⟩ = ud :: "abs" :: cs ∧
      unpacked_path ud ⟨false, cs⟩ = ud :: "rel" :: cs) ∧
    (∀ (ud1 ud2 : String) (p q : LPath), ud1 ≠ ud2 →
      unpacked_path ud1 p ≠ unpacked_path ud2 q) ∧
    (∀ (ud : String) (p : LPath), ud ≠ ".." → ud ≠ "." → ".." ∉ p.comps →
      (resolveComps (unpacked_path ud p)).take 1 = [ud]) ∧
    (∀ (st : UDStore) (ud : String) (p : LPath) (data : List Nat),
      (write_file st ud p data).2 = unpacked_path ud p ∧
      (unpacked_path ud p, data) ∈ (write_file st ud p data).1.files ∧
      (mkdir st ud p).2 = unpacked_path ud p ∧
      unpacked_path ud p ∈ (mkdir st ud p).1.dirs) := by
  refine ⟨?_, ?_, ?_, ?_⟩
  · intro ud cs
    constructor <;> simp [unpacked_path]
  · intro ud1 ud2 p q h heq
    cases hp : p.absolute <;> cases hq : q.absolute <;>
      simp [unpacked_path, hp, hq] at heq <;>
      exact h heq.1
  · intro ud p h1 h2 h3
    have key : ∀ sub : String, sub ≠ ".." → sub ≠ "." →
        (resolveComps (ud :: sub :: p.comps)).take 1 = [ud] := by
      intro sub hs1 hs2
      unfold resolveComps
      simp only [List.foldl_cons, if_neg h1, if_neg h2, if_neg hs1, if_neg hs2,
        List.nil_append]
      rw [resolve_keeps_head p.comps ([ud] ++ [sub]) (by simp) h3]
      simp
    cases hp : p.absolute <;> simp only [unpacked_path, hp]
    · simp only [Bool.false_eq_true, if_false]
      exact key "rel" (by decide) (by decide)
    · simp only [if_true]
      exact key "abs" (by decide) (by decide)
  · intro st ud p data
    refine ⟨rfl, ?_, rfl, ?_⟩
    · simp [write_file]
    · simp [mkdir]

/-- C8 witness: the amended statement instantiated at node name `n`,
the relative path `a/b`, concrete data and an empty store. -/
theorem claim_C8_witness :
    (resolveComps (unpacked_path "n" ⟨false, ["a", "b"]⟩)).take 1 = ["n"] ∧
    unpacked_path "m" ⟨false, ["a"]⟩ ≠ unpacked_path "n" ⟨false, ["a"]⟩ ∧
    (write_file ⟨[], []⟩ "n" ⟨false, ["a", "b"]⟩ [7]).2 =
      unpacked_path "n" ⟨false, ["a", "b"]⟩ :=
  ⟨claim_C8_amended_namespacing.2.2.1 "n" ⟨false, ["a", "b"]⟩ (by decide) (by decide)
      (by decide),
   claim_C8_amended_namespacing.2.1 "m" "n" ⟨false, ["a"]⟩ ⟨false, ["a"]⟩ (by decide),
   (claim_C8_amended_namespacing.2.2.2 ⟨[], []⟩ "n" ⟨false, ["a", "b"]⟩ [7]).1⟩

/-- The pickled `info` blob: a dictionary that may or may not carry the
`extracted_files` key (mapping logical path to child node name). -/
structure InfoBlob where
  extractedFiles : Option (List (String × String))
deriving Repr, DecidableEq

/-- The empty dictionary `{}`: no `extracted_files` key. -/
def emptyInfo : InfoBlob := ⟨none⟩

/-- The per-node persistent state: the `info.pkl` and `pathname` files
on storage, plus the in-memory `_file_path` cache field. -/
structure UDState where
  infoDisk : Option InfoBlob
  pathDisk : Option String
  cachedFilePath : Option String
deriving Repr, DecidableEq

/-- A freshly created node: nothing persisted, nothing cached. -/
def freshUD : UDState := ⟨none, none, none⟩

/-- The `info` getter (lines 87-95): opens `info.pkl` on every call
(one storage access, there is no cache field), returning `{}` when the
file does not exist — the getter catches FileNotFoundError.  Returns
the blob and the storage-read count of the call. -/
def readInfo (s : UDState) : InfoBlob × Nat :=
  match s.infoDisk with
  | some i => (i, 1)
  | none => (emptyInfo, 1)

/-- The `info` setter (lines 97-102): one storage write, no caching. -/
def writeInfo (s : UDState) (i : InfoBlob) : UDState × Nat :=
  ({ s with infoDisk := some i }, 1)

/-- `add_extracted_file` (lines 154-157): re-reads the blob from
storage, adds the entry under the `extracted_files` key and writes the
blob back.  Returns the new state and the (reads, writes) the call
performed on `info.pkl`. -/
def add_extracted_file (s : UDState) (fp ud : String) : UDState × Nat × Nat :=
  ({ s with infoDisk := some (InfoBlob.mk (some ((fp, ud) :: ((readInfo s).1.extractedFiles.getD [])))) }, 1, 1)

/-- The `file_path` getter (lines 50-56): served from the `_file_path`
cache when set; otherwise one storage read that fills the cache; a
missing `pathname` file is an uncaught FileNotFoundError (`none`). -/
def readFilePath (s : UDState) : Option (UDState × String × Nat) :=
  match s.cachedFilePath with
  | some p => some (s, p, 0)
  | none =>
    match s.pathDisk with
    | some p => some ({ s with cachedFilePath := some p }, p, 1)
    | none => none

/-- The `file_path` setter (lines 60-67): fills the cache and performs
one storage write. -/
def writeFilePath (s : UDState) (p : String) : UDState × Nat :=
  ({ s with cachedFilePath := some p, pathDisk := some p }, 1)

/-- The `extracted_files` property (lines 162-164):
`info.get('extracted_files', {})`. -/
def extracted_files (s : UDState) : List (String × String) :=
  (readInfo s).1.extractedFiles.getD []

/-- Operations whose storage traffic the C9 counterexample counts. -/
inductive UDOp where
  | addExtracted (fp ud : String)
  | getInfo
deriving Repr, DecidableEq

/-- Run a sequence of operations, accumulating the info-file reads and
writes they perform. -/
def runOps : UDState → List UDOp → UDState × Nat × Nat
  | s, [] => (s, 0, 0)
  | s, UDOp.addExtracted fp ud :: ops =>
    ((runOps (add_extracted_file s fp ud).1 ops).1,
     (add_extracted_file s fp ud).2.1 + (runOps (add_extracted_file s fp ud).1 ops).2.1,
     (add_extracted_file s fp ud).2.2 + (runOps (add_extracted_file s fp ud).1 ops).2.2)
  | s, UDOp.getInfo :: ops =>
    ((runOps s ops).1,
     (readInfo s).2 + (runOps s ops).2.1,
     (runOps s ops).2.2)

/-- C9 counterexample: the claim says the info blob is written at most
once over a node lifetime and served from a cache after the first
read.  Registering two extracted children writes `info.pkl` twice, and
two consecutive info reads each open storage (no cache exists). -/
theorem claim_C9_counterexample :
    (runOps freshUD [UDOp.addExtracted "a" "x", UDOp.addExtracted "b" "y"]).2.2 = 2 ∧
    (runOps freshUD [UDOp.getInfo, UDOp.getInfo]).2.1 = 2 := by
  exact ⟨rfl, rfl⟩

/-- C9 amended: the pathname is cached — after a write or a first read,
further reads cost no storage access — while the info blob has no
cache: every read opens storage and every `add_extracted_file` performs
exactly one info read and one info write; neither setter enforces
write-at-most-once. -/
theorem claim_C9_amended_caching :
    (∀ (s : UDState) (p : String),
      readFilePath (writeFilePath s p).1 = some ((writeFilePath s p).1, p, 0)) ∧
    (∀ (s : UDState) (q : String), s.cachedFilePath = some q →
      readFilePath s = some (s, q, 0)) ∧
    (∀ s : UDState, (readInfo s).2 = 1) ∧
    (∀ (s : UDState) (fp ud : String), (add_extracted_file s fp ud).2 = (1, 1)) := by
  refine ⟨?_, ?_, ?_, ?_⟩
  · intro s p
    simp [readFilePath, writeFilePath]
  · intro s q h
    simp [readFilePath, h]
  · intro s
    cases h : s.infoDisk <;> simp [readInfo, h]
  · intro s fp ud
    rfl

/-- C9 witness: the amended statement applied at a concrete node whose
pathname was just written, then read. -/
theorem claim_C9_witness :
    readFilePath (writeFilePath freshUD "p").1 =
      some ((writeFilePath freshUD "p").1, "p", 0) ∧
    (readInfo freshUD).2 = 1 :=
  ⟨claim_C9_amended_caching.1 freshUD "p",
   claim_C9_amended_caching.2.2.1 freshUD⟩

/-- C10: reading `info` on a node whose blob was never written does not
fail — the getter catches FileNotFoundError and returns the empty
dictionary — and `extracted_files` on such a node is the empty
mapping. -/
theorem claim_C10_missing_info_empty (s : UDState) (h : s.infoDisk = none) :
    (readInfo s).1 = emptyInfo ∧ extracted_files s = [] := by
  constructor
  · simp [readInfo, h]
  · simp [extracted_files, readInfo, h, emptyInfo]

/-- C10 witness: the fresh node. -/
theorem claim_C10_witness :
    (readInfo freshUD).1 = emptyInfo ∧ extracted_files freshUD = [] :=
  claim_C10_missing_info_empty freshUD rfl
